import Mathlib

set_option maxRecDepth 100000

/-!
Verification of the FCM web-push test harness (a React page in `src/App.tsx`
and a companion service-worker script) against its natural-language
specification.  The TypeScript code is shallowly embedded: JSON values are an
inductive type with an executable stringifier and recursive-descent reader,
browser state (localStorage, service-worker registrations, fetch results,
notification permission) is passed explicitly through environment records, and
every handler returns its new state together with a trace of the external
effects it performed.
-/

/-- JSON values, as produced by the JS `JSON.parse`.  Numbers keep their raw
lexeme: no claim depends on numeric value, only on truthiness. -/
inductive Json where
  | null : Json
  | bool (b : Bool) : Json
  | num (raw : String) : Json
  | str (s : String) : Json
  | arr (items : List Json) : Json
  | obj (fields : List (String × Json)) : Json

/-- Property access `j.key` on a JS value: only objects yield fields;
accessing a property of a primitive or array element container yields
`undefined`, modelled as `none`. -/
def Json.prop (j : Json) (key : String) : Option Json :=
  match j with
  | .obj fs => fs.lookup key
  | _ => none

/-- JS truthiness of a JSON value: `null`, `false`, numeric zero and the empty
string are falsy; arrays and objects are always truthy. -/
def Json.truthy : Json → Bool
  | .null => false
  | .bool b => b
  | .num raw => raw.data.any (fun c => c.isDigit && c != '0')
  | .str s => s != ""
  | .arr _ => true
  | .obj _ => true

/-- JS `typeof v === "object" && v` check used by the service worker: arrays
and plain objects pass, `null` is falsy and primitives have a different
`typeof`. -/
def Json.isObjectLike : Json → Bool
  | .obj _ => true
  | .arr _ => true
  | _ => false

/-- JS nullish coalescing `v ?? d` applied to an optional property access:
`undefined` (absent) and `null` both fall back to the default. -/
def jsCoalesce (v : Option Json) (d : Json) : Json :=
  match v with
  | none => d
  | some .null => d
  | some j => j

/-! ### JSON text: stringification and reading

`JSON.stringify` escapes quotes, backslashes and control characters; every
other character is emitted verbatim.  `JSON.parse` is modelled by a fuelled
recursive-descent reader over the character list. -/

def toHexDigit (n : Nat) : Char :=
  if n < 10 then Char.ofNat ('0'.toNat + n) else Char.ofNat ('a'.toNat + n - 10)

def fromHexDigit (c : Char) : Option Nat :=
  if '0' ≤ c ∧ c ≤ '9' then some (c.toNat - '0'.toNat)
  else if 'a' ≤ c ∧ c ≤ 'f' then some (c.toNat - 'a'.toNat + 10)
  else if 'A' ≤ c ∧ c ≤ 'F' then some (c.toNat - 'A'.toNat + 10)
  else none

/-- Escaping of one character inside a JSON string literal. -/
def escapeChar (c : Char) : List Char :=
  if c = '"' then ['\\', '"']
  else if c = '\\' then ['\\', '\\']
  else if c.toNat < 32 then
    ['\\', 'u', '0', '0', toHexDigit (c.toNat / 16), toHexDigit (c.toNat % 16)]
  else [c]

/-- A JSON string literal for `s`, quotes included. -/
def quoteString (s : String) : List Char :=
  '"' :: (s.data.flatMap escapeChar ++ ['"'])

def isWsChar (c : Char) : Bool :=
  c = ' ' || c = '\t' || c = '\n' || c = '\r'

def skipWs : List Char → List Char
  | [] => []
  | c :: cs => if isWsChar c then skipWs cs else c :: cs

/-- Whitespace stripped by the JS `String.prototype.trim`. -/
def jsWsChar (c : Char) : Bool :=
  c = ' ' || c = '\t' || c = '\n' || c = '\r' || c = '\x0b' || c = '\x0c'

/-- Model of the JS `String.prototype.trim`: strip whitespace from both
ends. -/
def jsTrim (s : String) : String :=
  String.mk (((s.data.dropWhile jsWsChar).reverse.dropWhile jsWsChar).reverse)

/-- Shorthand for the named escape codes of JSON. -/
def escapeCode (e : Char) : Option Char :=
  if e = '"' then some '"'
  else if e = '\\' then some '\\'
  else if e = '/' then some '/'
  else if e = 'b' then some '\x08'
  else if e = 'f' then some '\x0c'
  else if e = 'n' then some '\n'
  else if e = 'r' then some '\r'
  else if e = 't' then some '\t'
  else none

/-- Decodes the four hex digits of a `\uXXXX` escape. -/
def decodeHex4 (a b c d : Char) : Option Nat :=
  match fromHexDigit a, fromHexDigit b, fromHexDigit c, fromHexDigit d with
  | some x, some y, some z, some w => some (4096 * x + 256 * y + 16 * z + w)
  | _, _, _, _ => none

/-- Reads the body of a JSON string literal (the opening quote already
consumed); returns the decoded characters and the rest of the input. -/
def parseStringBody : List Char → Option (List Char × List Char)
  | [] => none
  | '"' :: cs => some ([], cs)
  | '\\' :: 'u' :: a :: b :: c :: d :: cs =>
    match decodeHex4 a b c d with
    | some n => (parseStringBody cs).map (fun p => (Char.ofNat n :: p.1, p.2))
    | none => none
  | '\\' :: e :: cs =>
    match escapeCode e with
    | some ch => (parseStringBody cs).map (fun p => (ch :: p.1, p.2))
    | none => none
  | c :: cs => (parseStringBody cs).map (fun p => (c :: p.1, p.2))

def takeDigits : List Char → List Char × List Char
  | [] => ([], [])
  | c :: cs =>
    if c.isDigit then
      let p := takeDigits cs
      (c :: p.1, p.2)
    else ([], c :: cs)

/-- Reads the fraction part of a JSON number, if present. -/
def fracPart : List Char → Option (List Char × List Char)
  | '.' :: cs =>
    match takeDigits cs with
    | ([], _) => none
    | (ds, r) => some ('.' :: ds, r)
  | cs => some ([], cs)

/-- Reads the exponent part of a JSON number, if present. -/
def expPart : List Char → Option (List Char × List Char)
  | [] => some ([], [])
  | e :: cs =>
    if e = 'e' || e = 'E' then
      let sp : List Char × List Char :=
        match cs with
        | '+' :: r => (['+'], r)
        | '-' :: r => (['-'], r)
        | _ => ([], cs)
      match takeDigits sp.2 with
      | ([], _) => none
      | (ds, r) => some (e :: (sp.1 ++ ds), r)
    else some ([], e :: cs)

/-- Reads a JSON number lexeme (RFC 8259 grammar: no leading zeros, optional
fraction and exponent). -/
def parseNumberBody (cs : List Char) : Option (List Char × List Char) :=
  let sp : List Char × List Char :=
    match cs with
    | '-' :: r => (['-'], r)
    | _ => ([], cs)
  match sp.2 with
  | [] => none
  | c :: r =>
    if c = '0' then
      match r with
      | d :: _ =>
        if d.isDigit then none
        else
          match fracPart r with
          | none => none
          | some (f, r2) =>
            match expPart r2 with
            | none => none
            | some (e, r3) => some (sp.1 ++ '0' :: (f ++ e), r3)
      | [] => some (sp.1 ++ ['0'], [])
    else if c.isDigit then
      match takeDigits (c :: r) with
      | (ds, r1) =>
        match fracPart r1 with
        | none => none
        | some (f, r2) =>
          match expPart r2 with
          | none => none
          | some (e, r3) => some (sp.1 ++ ds ++ f ++ e, r3)
    else none

/-- Reads a quoted object key. -/
def expectQuoteKey (cs : List Char) : Option (String × List Char) :=
  match cs with
  | [] => none
  | c :: body =>
    if c = '"' then (parseStringBody body).map (fun p => (String.mk p.1, p.2))
    else none

/-- Skips whitespace and consumes the expected punctuation character. -/
def expectChar (t : Char) (cs : List Char) : Option (List Char) :=
  match skipWs cs with
  | [] => none
  | c :: r => if c = t then some r else none

mutual

/-- Fuelled recursive-descent reader for one JSON value; the input must
already have leading whitespace stripped. -/
def parseVal : Nat → List Char → Option (Json × List Char)
  | 0, _ => none
  | _ + 1, [] => none
  | n + 1, c :: rest =>
    if c = '"' then
      (parseStringBody rest).map (fun p => (Json.str (String.mk p.1), p.2))
    else if c = '{' then
      match skipWs rest with
      | [] => none
      | c2 :: r2 =>
        if c2 = '}' then some (Json.obj [], r2)
        else (parseMembers n (c2 :: r2)).map (fun p => (Json.obj p.1, p.2))
    else if c = '[' then
      match skipWs rest with
      | [] => none
      | c2 :: r2 =>
        if c2 = ']' then some (Json.arr [], r2)
        else (parseItems n (c2 :: r2)).map (fun p => (Json.arr p.1, p.2))
    else if c = 'n' then
      match rest with
      | 'u' :: 'l' :: 'l' :: r => some (Json.null, r)
      | _ => none
    else if c = 't' then
      match rest with
      | 'r' :: 'u' :: 'e' :: r => some (Json.bool true, r)
      | _ => none
    else if c = 'f' then
      match rest with
      | 'a' :: 'l' :: 's' :: 'e' :: r => some (Json.bool false, r)
      | _ => none
    else if c = '-' || c.isDigit then
      (parseNumberBody (c :: rest)).map (fun p => (Json.num (String.mk p.1), p.2))
    else none

/-- Reads the members of a JSON object after the opening brace (input
pre-stripped, at least one member expected). -/
def parseMembers : Nat → List Char → Option (List (String × Json) × List Char)
  | 0, _ => none
  | n + 1, cs =>
    (expectQuoteKey cs).bind (fun kp =>
      (expectChar ':' kp.2).bind (fun cs3 =>
        (parseVal n (skipWs cs3)).bind (fun vp =>
          match skipWs vp.2 with
          | [] => none
          | c3 :: cs5 =>
            if c3 = ',' then
              (parseMembers n (skipWs cs5)).map (fun p => ((kp.1, vp.1) :: p.1, p.2))
            else if c3 = '}' then some ([(kp.1, vp.1)], cs5)
            else none)))

/-- Reads the items of a JSON array after the opening bracket (input
pre-stripped, at least one item expected). -/
def parseItems : Nat → List Char → Option (List Json × List Char)
  | 0, _ => none
  | n + 1, cs =>
    (parseVal n cs).bind (fun vp =>
      match skipWs vp.2 with
      | [] => none
      | c :: cs2 =>
        if c = ',' then
          (parseItems n (skipWs cs2)).map (fun p => (vp.1 :: p.1, p.2))
        else if c = ']' then some ([vp.1], cs2)
        else none)

end

/-- Model of `JSON.parse`: reads one value, then only trailing whitespace may
remain.  The fuel bound is generous; nesting consumes at least one character
per level, so it is never exhausted on real input. -/
def parseJson (s : String) : Option Json :=
  match parseVal (s.data.length + 10) (skipWs s.data) with
  | some (j, rest) => if skipWs rest = [] then some j else none
  | none => none

/-! ### Settings persistence (`loadSavedSettings` / `saveSettings`)

The page keeps one key in `localStorage`; the stored value is the
`JSON.stringify` of the object literal `{ config, vapidKey, serverKey }`. -/

/-- Shape of the Firebase web-app configuration form. -/
structure FirebaseConfig where
  apiKey : String
  authDomain : String
  projectId : String
  storageBucket : String
  messagingSenderId : String
  appId : String
deriving DecidableEq

/-- Browser `localStorage`: a string-to-string map; `setItem` overwrites,
`getItem` returns the latest value. -/
def LocalStorage := List (String × String)

def LocalStorage.getItem (store : LocalStorage) (key : String) : Option String :=
  List.lookup key store

def LocalStorage.setItem (store : LocalStorage) (key : String) (value : String) : LocalStorage :=
  (key, value) :: store

def LOCAL_STORAGE_KEY : String := "fcm-webpush-settings"

/-- The JS object literal holding the six configuration fields. -/
def configJson (config : FirebaseConfig) : Json :=
  Json.obj
    [("apiKey", Json.str config.apiKey),
     ("authDomain", Json.str config.authDomain),
     ("projectId", Json.str config.projectId),
     ("storageBucket", Json.str config.storageBucket),
     ("messagingSenderId", Json.str config.messagingSenderId),
     ("appId", Json.str config.appId)]

/-- The JS value `{ config, vapidKey, serverKey }` that the page persists
(object keys in insertion order, exactly as `JSON.stringify` visits them). -/
def settingsJson (config : FirebaseConfig) (vapidKey serverKey : String) : Json :=
  Json.obj
    [("config", configJson config),
     ("vapidKey", Json.str vapidKey),
     ("serverKey", Json.str serverKey)]

/-- One `"key":"value"` member of a stringified object whose value is a
string. -/
def strMember (key value : String) : List Char :=
  quoteString key ++ ':' :: quoteString value

/-- Character-level output of `JSON.stringify` on the config object. -/
def configObjData (config : FirebaseConfig) : List Char :=
  '{' ::
    (strMember "apiKey" config.apiKey ++ ',' ::
     (strMember "authDomain" config.authDomain ++ ',' ::
      (strMember "projectId" config.projectId ++ ',' ::
       (strMember "storageBucket" config.storageBucket ++ ',' ::
        (strMember "messagingSenderId" config.messagingSenderId ++ ',' ::
         (strMember "appId" config.appId ++ ['}']))))))

/-- Character-level output of
`JSON.stringify({ config, vapidKey, serverKey })`. -/
def stringifySettingsData (config : FirebaseConfig) (vapidKey serverKey : String) : List Char :=
  '{' :: (quoteString "config" ++ ':' ::
    (configObjData config ++ ',' ::
     (strMember "vapidKey" vapidKey ++ ',' ::
      (strMember "serverKey" serverKey ++ ['}']))))

def stringifySettings (config : FirebaseConfig) (vapidKey serverKey : String) : String :=
  String.mk (stringifySettingsData config vapidKey serverKey)

/-- Model of `saveSettings`: it writes the stringified settings object under
the fixed key. -/
def saveSettings (store : LocalStorage) (config : FirebaseConfig)
    (vapidKey serverKey : String) : LocalStorage :=
  store.setItem LOCAL_STORAGE_KEY (stringifySettings config vapidKey serverKey)

/-- Model of `loadSavedSettings`: it reads the fixed key, returns `null` when
the entry is absent or empty, and returns the parsed JSON value otherwise
(`null` when parsing throws; the TS cast performs no validation). -/
def loadSavedSettings (store : LocalStorage) : Option Json :=
  match store.getItem LOCAL_STORAGE_KEY with
  | none => none
  | some raw => if raw = "" then none else parseJson raw

/-! ### Main-thread application model (`App.tsx`)

React state is a record; each handler is a function from the current state and
an environment (the outcomes of the awaited browser/SDK calls) to the new state
and a trace of external effects. -/

/-- Status log entry kinds. -/
inductive StatusType where
  | info : StatusType
  | success : StatusType
  | error : StatusType
deriving DecidableEq

structure StatusMessage where
  type : StatusType
  text : String
  timestamp : Nat
deriving DecidableEq

structure PushMessagePayload where
  title : String
  body : String
  imageUrl : String
  data : String
deriving DecidableEq

/-- A JS exception: `error.message` when present (`error?.message ?? d`
falls back to `d` when the message is missing). -/
def JsError := Option String

/-- Snapshot of a `ServiceWorkerRegistration`: the ids of its `active`,
`waiting` and `installing` workers, when present. -/
structure Registration where
  active : Option Nat
  waiting : Option Nat
  installing : Option Nat
deriving DecidableEq

/-- JS `a || b` on possibly-missing worker references. -/
def orWorker (a b : Option Nat) : Option Nat :=
  match a with
  | some x => some x
  | none => b

/-- Environment for `ensureServiceWorkerRegistration`: whether the browser
exposes `navigator.serviceWorker`, the result of `getRegistration`, the
registration returned by `register`, and its state once the `statechange`
listener has seen `activated`. -/
structure SWEnv where
  hasServiceWorker : Bool
  existingRegistration : Option Registration
  newRegistration : Registration
  activatedRegistration : Registration

/-- External effects performed by the page. -/
inductive Ev where
  | saveSettingsEv (config : FirebaseConfig) (vapidKey serverKey : String) : Ev
  | deleteAppEv : Ev
  | initializeAppEv (config : FirebaseConfig) : Ev
  | getMessagingEv : Ev
  | swGetRegistrationEv (script : String) : Ev
  | swRegisterEv (script : String) : Ev
  | swAwaitActivationEv : Ev
  | swPostMessageEv (worker : Nat) (config : FirebaseConfig) : Ev
  | requestPermissionEv : Ev
  | focusVapidEv : Ev
  | getTokenEv (vapidKey : String) (registration : Registration) : Ev
  | fetchEv (url method : String) (headers : List (String × String)) (body : Json) : Ev

def SW_SCRIPT : String := "/firebase-messaging-sw.js"

/-- Model of `ensureServiceWorkerRegistration`.  It returns the registration
(or the thrown error) together with the effect trace: the `getRegistration`
lookup, a `register` call when nothing was registered, the wait for the
`activated` state, and the `INIT_FIREBASE` post to the active-or-waiting
worker. -/
def ensureServiceWorkerRegistration (firebaseConfig : FirebaseConfig) (env : SWEnv) :
    Except JsError Registration × List Ev :=
  if env.hasServiceWorker = false then
    (.error (some "서비스 워커를 지원하지 않는 환경입니다."), [])
  else
    match env.existingRegistration with
    | some reg =>
      match orWorker reg.active reg.waiting with
      | some w =>
        (.ok reg, [.swGetRegistrationEv SW_SCRIPT, .swPostMessageEv w firebaseConfig])
      | none => (.ok reg, [.swGetRegistrationEv SW_SCRIPT])
    | none =>
      let ready :=
        if env.newRegistration.active.isSome then (env.newRegistration, false)
        else
          match orWorker env.newRegistration.installing env.newRegistration.waiting with
          | none => (env.newRegistration, false)
          | some _ => (env.activatedRegistration, true)
      let t1 := [Ev.swGetRegistrationEv SW_SCRIPT, Ev.swRegisterEv SW_SCRIPT] ++
        (if ready.2 then [Ev.swAwaitActivationEv] else [])
      match orWorker ready.1.active ready.1.waiting with
      | some w => (.ok ready.1, t1 ++ [.swPostMessageEv w firebaseConfig])
      | none => (.ok ready.1, t1)

/-- The React component state that the modelled handlers read and write,
together with the browser-storage contents. -/
structure AppState where
  firebaseConfig : FirebaseConfig
  vapidKey : String
  serverKey : String
  firebaseApp : Option FirebaseConfig
  messaging : Option Unit
  isInitializing : Bool
  token : String
  statusMessages : List StatusMessage
  pushPayload : PushMessagePayload
  targetToken : String
  sending : Bool
  sendResult : String
  storage : LocalStorage

/-- Model of `appendStatus`: prepend one log entry. -/
def appendStatus (s : AppState) (type : StatusType) (text : String) (now : Nat) : AppState :=
  {s with statusMessages := ⟨type, text, now⟩ :: s.statusMessages}

/-- Environment for `handleInitializeFirebase`: the `isSupported` answer, the
currently initialized Firebase apps, the service-worker environment and the
clock. -/
structure InitEnv where
  supported : Bool
  apps : List Unit
  sw : SWEnv
  now : Nat

/-- Model of `handleInitializeFirebase`: set the busy flag and clear the send
result, bail out when FCM is unsupported, persist the settings, delete any
existing apps, call `initializeApp` then `getMessaging`, run the
service-worker handshake, and log the outcome; the `finally` clause clears
the busy flag on every path. -/
def handleInitializeFirebase (s0 : AppState) (env : InitEnv) : AppState × List Ev :=
  let s1 := {s0 with isInitializing := true, sendResult := ""}
  if env.supported = false then
    ({appendStatus s1 .error "이 브라우저에서는 FCM 웹 푸시를 지원하지 않습니다." env.now with
        isInitializing := false}, [])
  else
    let s2 := {s1 with
      storage := saveSettings s1.storage s1.firebaseConfig s1.vapidKey s1.serverKey}
    let t2 : List Ev := Ev.saveSettingsEv s1.firebaseConfig s1.vapidKey s1.serverKey ::
      env.apps.map (fun _ => Ev.deleteAppEv)
    let s3 := if env.apps.length > 0 then
        appendStatus s2 .info "기존 Firebase 앱 구성을 초기화했습니다." env.now
      else s2
    let t3 := t2 ++ [Ev.initializeAppEv s1.firebaseConfig, Ev.getMessagingEv]
    match ensureServiceWorkerRegistration s1.firebaseConfig env.sw with
    | (.error e, tsw) =>
      ({appendStatus s3 .error (e.getD "Firebase 초기화에 실패했습니다.") env.now with
          isInitializing := false}, t3 ++ tsw)
    | (.ok _, tsw) =>
      ({appendStatus {s3 with firebaseApp := some s1.firebaseConfig, messaging := some ()}
          .success "Firebase 초기화 및 서비스 워커 구성이 완료되었습니다." env.now with
          isInitializing := false}, t3 ++ tsw)

/-- Environment for `handleRequestPermissionAndToken`: whether the
`Notification` API exists, the permission-prompt outcome, the service-worker
environment, the `getToken` outcome (the empty string models a falsy token)
and the clock. -/
structure TokenEnv where
  notificationDefined : Bool
  permission : Except JsError String
  sw : SWEnv
  getTokenResult : Except JsError String
  now : Nat

/-- Model of `handleRequestPermissionAndToken`: guard on messaging and the
VAPID key, require the `Notification` API, ask for permission, run the
service-worker handshake, call `getToken`, and store the token into both
`token` and `targetToken` on success; every failure appends an error log
entry and leaves the rest of the state unchanged. -/
def handleRequestPermissionAndToken (s : AppState) (env : TokenEnv) : AppState × List Ev :=
  if s.messaging = none then
    (appendStatus s .error "Firebase 메시징이 초기화되지 않았습니다. 먼저 초기화를 진행해주세요." env.now, [])
  else if jsTrim s.vapidKey = "" then
    (appendStatus s .error "VAPID 키를 입력해주세요." env.now, [Ev.focusVapidEv])
  else if env.notificationDefined = false then
    (appendStatus s .error "이 브라우저에서는 알림 API를 지원하지 않습니다." env.now, [])
  else
    match env.permission with
    | .error e =>
      (appendStatus s .error (e.getD "토큰 발급 중 오류가 발생했습니다.") env.now,
        [Ev.requestPermissionEv])
    | .ok permission =>
      if permission ≠ "granted" then
        (appendStatus s .error "알림 권한을 허용하지 않아 토큰을 발급할 수 없습니다." env.now,
          [Ev.requestPermissionEv])
      else
        match ensureServiceWorkerRegistration s.firebaseConfig env.sw with
        | (.error e, tsw) =>
          (appendStatus s .error (e.getD "토큰 발급 중 오류가 발생했습니다.") env.now,
            Ev.requestPermissionEv :: tsw)
        | (.ok registration, tsw) =>
          match env.getTokenResult with
          | .error e =>
            (appendStatus s .error (e.getD "토큰 발급 중 오류가 발생했습니다.") env.now,
              Ev.requestPermissionEv :: tsw ++ [Ev.getTokenEv (jsTrim s.vapidKey) registration])
          | .ok currentToken =>
            if currentToken = "" then
              (appendStatus s .error "토큰 발급에 실패했습니다." env.now,
                Ev.requestPermissionEv :: tsw ++ [Ev.getTokenEv (jsTrim s.vapidKey) registration])
            else
              (appendStatus {s with token := currentToken, targetToken := currentToken}
                  .success "FCM 등록 토큰을 발급했습니다." env.now,
                Ev.requestPermissionEv :: tsw ++ [Ev.getTokenEv (jsTrim s.vapidKey) registration])

/-- Model of `parseDataPayload`: blank input means no payload; invalid JSON
throws the fixed Korean error message. -/
def parseDataPayload (data : String) : Except String (Option Json) :=
  if jsTrim data = "" then .ok none
  else
    match parseJson data with
    | some j => .ok (some j)
    | none => .error "데이터(JSON) 형식이 올바르지 않습니다."

/-- Request body built by `handleSendPush`: the trimmed target token, the
notification object (the image only when the URL is truthy), and the data
payload only when it is truthy. -/
def sendBody (s : AppState) (dataPayload : Option Json) : Json :=
  let notif := [("title", Json.str s.pushPayload.title),
                ("body", Json.str s.pushPayload.body)] ++
    (if s.pushPayload.imageUrl = "" then [] else [("image", Json.str s.pushPayload.imageUrl)])
  let base := [("to", Json.str (jsTrim s.targetToken)), ("notification", Json.obj notif)]
  match dataPayload with
  | some j => if j.truthy then Json.obj (base ++ [("data", j)]) else Json.obj base
  | none => Json.obj base

/-- The `fetch` response fields that `handleSendPush` inspects. -/
structure FetchResponse where
  ok : Bool
  status : Nat
  text : String

/-- Environment for `handleSendPush`: the outcome of the `fetch` call and the
clock. -/
structure SendEnv where
  fetchResult : Except JsError FetchResponse
  now : Nat

def FCM_SEND_URL : String := "https://fcm.googleapis.com/fcm/send"

def corsErrorText : String :=
  "푸시 전송 요청 중 오류가 발생했습니다. 브라우저에서 CORS로 인해 실패할 수 있으며, 이 경우 서버 사이드 프록시를 이용해야 합니다."

/-- Model of `handleSendPush`: clear the send result, validate the server
key, target token and data payload, then POST to the legacy endpoint; the
response text (on success) or the error description (on failure) lands in
`sendResult`, and the `finally` clause clears the sending flag. -/
def handleSendPush (s0 : AppState) (env : SendEnv) : AppState × List Ev :=
  let s := {s0 with sendResult := ""}
  if jsTrim s.serverKey = "" then
    (appendStatus s .error "서버 키(legacy key)를 입력해주세요." env.now, [])
  else if jsTrim s.targetToken = "" then
    (appendStatus s .error "전송할 대상 토큰을 입력해주세요." env.now, [])
  else
    match parseDataPayload s.pushPayload.data with
    | .error msg => (appendStatus s .error msg env.now, [])
    | .ok dataPayload =>
      let s1 := {s with sending := true}
      let fetchTrace := [Ev.fetchEv FCM_SEND_URL "POST"
        [("Content-Type", "application/json"),
         ("Authorization", "key=" ++ jsTrim s.serverKey)]
        (sendBody s dataPayload)]
      match env.fetchResult with
      | .error e =>
        ({appendStatus {s1 with sendResult := e.getD "오류가 발생했습니다."}
            .error corsErrorText env.now with sending := false}, fetchTrace)
      | .ok resp =>
        if resp.ok = false then
          ({appendStatus {s1 with
              sendResult := "FCM 전송 실패 (" ++ toString resp.status ++ "): " ++ resp.text}
              .error corsErrorText env.now with sending := false}, fetchTrace)
        else
          ({appendStatus {s1 with sendResult := resp.text}
              .success "푸시 메시지 전송 요청을 완료했습니다." env.now with sending := false},
            fetchTrace)

/-! ### Service-worker model (`firebase-messaging-sw.js`)

The worker keeps two module-level variables (`messagingInstance`,
`backgroundHandlerRegistered`) plus the Firebase compat state
(`firebase.apps`); message and push events are functions from this state to a
new state and a trace of worker effects. -/

/-- Effects performed by the service worker. -/
inductive SwEv where
  | initializeAppEv (config : Json) : SwEv
  | createMessagingEv : SwEv
  | registerBackgroundHandlerEv : SwEv
  | showNotificationEv (title : Json) (body : Json) (icon : Json) (data : Option Json) : SwEv

/-- Module-level state of the service worker. -/
structure SWState where
  messagingInstance : Option Unit
  backgroundHandlerRegistered : Bool
  apps : List Json

/-- Initial values of the worker module variables. -/
def swInitialState : SWState := ⟨none, false, []⟩

/-- Model of `initializeMessaging(config)`: bail out unless the config is a
truthy object, initialize the app only when `firebase.apps` is empty, and,
when messaging is supported, grab a messaging instance and register the
background handler at most once. -/
def initializeMessaging (st : SWState) (isSupported : Bool) (config : Option Json) :
    SWState × List SwEv :=
  match config with
  | none => (st, [])
  | some cfg =>
    if cfg.isObjectLike = false then (st, [])
    else
      let afterApp :=
        if st.apps.isEmpty then
          ({st with apps := st.apps ++ [cfg]}, [SwEv.initializeAppEv cfg])
        else (st, [])
      if isSupported then
        let st1 := {afterApp.1 with messagingInstance := some ()}
        if st1.backgroundHandlerRegistered = false then
          ({st1 with backgroundHandlerRegistered := true},
            afterApp.2 ++ [SwEv.createMessagingEv, SwEv.registerBackgroundHandlerEv])
        else (st1, afterApp.2 ++ [SwEv.createMessagingEv])
      else afterApp

/-- Model of the `message` event listener: only data of the shape
`{type: "INIT_FIREBASE", ...}` triggers `initializeMessaging` with the
`config` property. -/
def handleMessageEvent (st : SWState) (isSupported : Bool) (data : Option Json) :
    SWState × List SwEv :=
  match data with
  | none => (st, [])
  | some d =>
    match d.prop "type" with
    | some (Json.str t) =>
      if t = "INIT_FIREBASE" then initializeMessaging st isSupported (d.prop "config")
      else (st, [])
    | _ => (st, [])

/-- Model of the callback passed to `onBackgroundMessage`: it always shows a
notification built from the payload with fixed fallbacks. -/
def onBackgroundMessageHandler (payload : Json) : List SwEv :=
  [SwEv.showNotificationEv
    (jsCoalesce ((payload.prop "notification").bind (fun n => n.prop "title"))
      (Json.str "백그라운드 메시지"))
    (jsCoalesce ((payload.prop "notification").bind (fun n => n.prop "body")) (Json.str ""))
    (jsCoalesce ((payload.prop "notification").bind (fun n => n.prop "icon"))
      (Json.str "/vite.svg"))
    (some (jsCoalesce (payload.prop "data") (Json.obj [])))]

/-- Model of the raw `push` event listener: it returns early when a messaging
instance exists or the event has no data, and shows a fallback notification
only when the data parses as JSON. -/
def handlePushEvent (st : SWState) (data : Option String) : List SwEv :=
  if st.messagingInstance.isSome then []
  else
    match data with
    | none => []
    | some raw =>
      match parseJson raw with
      | none => []
      | some payload =>
        [SwEv.showNotificationEv
          (jsCoalesce ((payload.prop "notification").bind (fun n => n.prop "title"))
            (Json.str "푸시 알림"))
          (jsCoalesce ((payload.prop "notification").bind (fun n => n.prop "body")) (Json.str ""))
          (jsCoalesce ((payload.prop "notification").bind (fun n => n.prop "icon"))
            (Json.str "/vite.svg"))
          none]

/-- Delivering a sequence of `message` events to the worker, accumulating the
effect trace. -/
def processMessageEvents (st : SWState) (isSupported : Bool) (msgs : List (Option Json)) :
    SWState × List SwEv :=
  match msgs with
  | [] => (st, [])
  | m :: rest =>
    let p1 := handleMessageEvent st isSupported m
    let p2 := processMessageEvents p1.1 isSupported rest
    (p2.1, p1.2 ++ p2.2)

/-- Recognizer for the background-handler registration effect. -/
def SwEv.isRegisterBg : SwEv → Bool
  | .registerBackgroundHandlerEv => true
  | _ => false

/-! ### Shared concrete instances used by witnesses -/

def sampleConfig : FirebaseConfig :=
  ⟨"AIza-key", "proj.firebaseapp.com", "proj-id", "proj.appspot.com", "777", "1:777:web:abc"⟩

def sampleRegistration : Registration := ⟨some 1, none, none⟩

def sampleSWEnv : SWEnv :=
  ⟨true, some sampleRegistration, ⟨none, none, none⟩, ⟨none, none, none⟩⟩

def samplePayload : PushMessagePayload := ⟨"웹 푸시 테스트", "FCM에서 전송한 알림입니다.", "", ""⟩

def sampleState : AppState where
  firebaseConfig := sampleConfig
  vapidKey := "BBO-vapid"
  serverKey := "AAAA-server"
  firebaseApp := none
  messaging := some ()
  isInitializing := false
  token := "tok0"
  statusMessages := []
  pushPayload := samplePayload
  targetToken := "target-token"
  sending := false
  sendResult := "old"
  storage := []

/-- Count of background-handler registrations in a worker effect trace. -/
def countRegs (t : List SwEv) : Nat := t.countP (fun e => e.isRegisterBg)

/-- Potential of a worker state: one pending registration while the flag is
unset, none afterwards. -/
def regPotential (st : SWState) : Nat := if st.backgroundHandlerRegistered then 0 else 1

/-- Lifecycle milestones of the initialization handler. -/
inductive LifecycleStep where
  | initApp : LifecycleStep
  | getMsg : LifecycleStep
  | swGetReg : LifecycleStep
  | swReg : LifecycleStep
deriving DecidableEq

/-- Classifier of initialization-lifecycle events. -/
def lifecycleOf : Ev → Option LifecycleStep
  | .initializeAppEv _ => some .initApp
  | .getMessagingEv => some .getMsg
  | .swGetRegistrationEv _ => some .swGetReg
  | .swRegisterEv _ => some .swReg
  | _ => none

/-- Milestones of the token handler. -/
inductive TokenStep where
  | perm : TokenStep
  | getTok : TokenStep
deriving DecidableEq

/-- Classifier of permission/token events. -/
def tokenStepOf : Ev → Option TokenStep
  | .requestPermissionEv => some .perm
  | .getTokenEv _ _ => some .getTok
  | _ => none

/-- Recognizer of the HTTP send call. -/
def Ev.isFetch : Ev → Bool
  | .fetchEv _ _ _ _ => true
  | _ => false

example : parseJson "\x7b\"foo\":\"bar\"\x7d" = some (Json.obj [("foo", Json.str "bar")]) := by
  rfl

example : parseJson "\x7b" = none := by rfl

example : parseJson "  [1, true, null, \"a\\nb\"] " =
    some (Json.arr [Json.num "1", Json.bool true, Json.null, Json.str "a\nb"]) := by rfl

example : parseJson "\x7b\"a\":\x7b\"b\":[\x7b\x7d,0.25e-3]\x7d\x7d" =
    some (Json.obj [("a", Json.obj [("b", Json.arr [Json.obj [], Json.num "0.25e-3"])])]) := by
  rfl

example : parseJson "01" = none := by rfl

example : parseJson "hello" = none := by rfl

example : parseJson "\"\\u0041\"" = some (Json.str "A") := by rfl

example :
    loadSavedSettings (saveSettings [] ⟨"a", "b", "c", "d", "e", "f"⟩ "v \"x\"" "k") =
      some (settingsJson ⟨"a", "b", "c", "d", "e", "f"⟩ "v \"x\"" "k") := by rfl

/-! ### Round-trip lemmas: reading back a stringified settings object -/

theorem String.mk_data_eq (s : String) : String.mk s.data = s := by
  cases s
  rfl

theorem fromHex_toHex : ∀ n, n < 16 → fromHexDigit (toHexDigit n) = some n := by decide

theorem charOfNat_toNat (c : Char) (h : c.toNat < 55296) : Char.ofNat c.toNat = c := by
  have hv : c.toNat.isValidChar := Or.inl h
  apply Char.eq_of_val_eq
  apply UInt32.eq_of_toBitVec_eq
  simp only [Char.ofNat, hv, ↓reduceDIte, Char.ofNatAux]
  apply BitVec.eq_of_toNat_eq
  simp only [BitVec.toNat_ofNatLt]
  rfl

theorem decodeHex4_ctrl (t : Nat) (h : t < 32) :
    decodeHex4 '0' '0' (toHexDigit (t / 16)) (toHexDigit (t % 16)) = some t := by
  unfold decodeHex4
  rw [show fromHexDigit '0' = some 0 by decide, fromHex_toHex _ (by omega),
    fromHex_toHex _ (by omega)]
  show some (4096 * 0 + 256 * 0 + 16 * (t / 16) + t % 16) = some t
  congr 1
  omega

theorem parseStringBody_unicode (a b c d : Char) (n : Nat) (h : decodeHex4 a b c d = some n)
    (cs : List Char) :
    parseStringBody ('\\' :: 'u' :: a :: b :: c :: d :: cs) =
      (parseStringBody cs).map (fun p => (Char.ofNat n :: p.1, p.2)) := by
  rw [parseStringBody.eq_3, h]

/-- Reading back an escaped character sequence recovers it exactly. -/
theorem parseStringBody_escape (cs rest : List Char) :
    parseStringBody (cs.flatMap escapeChar ++ ('"' :: rest)) = some (cs, rest) := by
  induction cs with
  | nil => simp [parseStringBody]
  | cons c cs ih =>
    by_cases h1 : c = '"'
    · subst h1
      simp only [escapeChar, ↓reduceIte, List.flatMap_cons, List.cons_append,
        List.append_assoc, List.nil_append]
      rw [parseStringBody.eq_4 '"' _ (by intro _ _ _ _ _ h; exact absurd h (by decide))]
      rw [show escapeCode '"' = some '"' by decide]
      rw [ih]
      rfl
    · by_cases h2 : c = '\\'
      · subst h2
        simp only [escapeChar, ↓reduceIte, List.flatMap_cons, List.cons_append,
          List.append_assoc, List.nil_append]
        rw [if_neg h1]
        simp only [List.cons_append, List.nil_append]
        rw [parseStringBody.eq_4 '\\' _ (by intro _ _ _ _ _ h; exact absurd h (by decide))]
        rw [show escapeCode '\\' = some '\\' by decide]
        rw [ih]
        rfl
      · by_cases h3 : c.toNat < 32
        · simp only [escapeChar, if_neg h1, if_neg h2, if_pos h3, List.flatMap_cons,
            List.cons_append, List.append_assoc]
          rw [parseStringBody_unicode _ _ _ _ c.toNat (decodeHex4_ctrl c.toNat h3)]
          simp only [charOfNat_toNat c (by omega), List.nil_append, ih, Option.map_some']
        · have h4 : escapeChar c = [c] := by
            simp [escapeChar, h1, h2, h3]
          rw [List.flatMap_cons, h4]
          simp only [List.cons_append, List.append_assoc, List.nil_append]
          rw [parseStringBody.eq_5 _ _ (fun h => h1 h)
            (by intro _ _ _ _ _ h _; exact h2 h) (by intro _ _ h _; exact h2 h)]
          rw [ih]
          rfl

theorem skipWs_quote (cs : List Char) : skipWs ('"' :: cs) = '"' :: cs := rfl

theorem skipWs_nil : skipWs ([] : List Char) = [] := rfl

/-- One-step unfolding of `parseMembers` at positive fuel. -/
theorem parseMembers_succ (n : Nat) (cs : List Char) :
    parseMembers (n + 1) cs =
      (expectQuoteKey cs).bind (fun kp =>
        (expectChar ':' kp.2).bind (fun cs3 =>
          (parseVal n (skipWs cs3)).bind (fun vp =>
            match skipWs vp.2 with
            | [] => none
            | c3 :: cs5 =>
              if c3 = ',' then
                (parseMembers n (skipWs cs5)).map (fun p => ((kp.1, vp.1) :: p.1, p.2))
              else if c3 = '}' then some ([(kp.1, vp.1)], cs5)
              else none))) := rfl

/-- Reading a quoted string as a value recovers the string. -/
theorem parseVal_strNormal (n : Nat) (vd X : List Char) :
    parseVal (n + 1) ('"' :: (vd.flatMap escapeChar ++ ('"' :: X))) =
      some (Json.str (String.mk vd), X) := by
  show (parseStringBody (vd.flatMap escapeChar ++ ('"' :: X))).map
      (fun p => (Json.str (String.mk p.1), p.2)) = _
  rw [parseStringBody_escape]
  rfl

/-- Reading a quoted object key recovers the key. -/
theorem expectQuoteKey_escape (kd X : List Char) :
    expectQuoteKey ('"' :: (kd.flatMap escapeChar ++ ('"' :: X))) =
      some (String.mk kd, X) := by
  show (parseStringBody (kd.flatMap escapeChar ++ ('"' :: X))).map
      (fun p => (String.mk p.1, p.2)) = _
  rw [parseStringBody_escape]
  rfl

theorem expectChar_colon (cs : List Char) : expectChar ':' (':' :: cs) = some cs := rfl

/-- Opening brace followed by a quoted key dispatches to `parseMembers`. -/
theorem parseVal_objNormal (n : Nat) (X : List Char) :
    parseVal (n + 1) ('{' :: ('"' :: X)) =
      (parseMembers n ('"' :: X)).map (fun p => (Json.obj p.1, p.2)) := rfl

/-- Object member with a string value, followed by a comma. -/
theorem member_str_comma (n : Nat) (kd vd rest : List Char) :
    parseMembers (n + 2)
        ('"' :: (kd.flatMap escapeChar ++ ('"' :: (':' ::
          ('"' :: (vd.flatMap escapeChar ++ ('"' :: (',' :: rest)))))))) =
      (parseMembers (n + 1) (skipWs rest)).map
        (fun p => ((String.mk kd, Json.str (String.mk vd)) :: p.1, p.2)) := by
  rw [parseMembers_succ (n + 1)]
  rw [expectQuoteKey_escape]
  simp only [Option.some_bind]
  rw [expectChar_colon]
  simp only [Option.some_bind]
  rw [skipWs_quote]
  rw [parseVal_strNormal n]
  simp only [Option.some_bind]
  rfl

/-- Final object member with a string value, followed by the closing brace. -/
theorem member_str_close (n : Nat) (kd vd rest : List Char) :
    parseMembers (n + 2)
        ('"' :: (kd.flatMap escapeChar ++ ('"' :: (':' ::
          ('"' :: (vd.flatMap escapeChar ++ ('"' :: ('}' :: rest)))))))) =
      some ([(String.mk kd, Json.str (String.mk vd))], rest) := by
  rw [parseMembers_succ (n + 1)]
  rw [expectQuoteKey_escape]
  simp only [Option.some_bind]
  rw [expectChar_colon]
  simp only [Option.some_bind]
  rw [skipWs_quote]
  rw [parseVal_strNormal n]
  simp only [Option.some_bind]
  rfl

/-- Reading back the stringified config object yields its six fields. -/
theorem parseVal_configObj (n : Nat) (config : FirebaseConfig) (X : List Char) :
    parseVal (n + 8) (configObjData config ++ X) = some (configJson config, X) := by
  simp only [configObjData, strMember, quoteString, List.cons_append, List.append_assoc,
    List.nil_append]
  rw [parseVal_objNormal (n + 7)]
  rw [member_str_comma (n + 5)]
  rw [skipWs_quote]
  rw [member_str_comma (n + 4)]
  rw [skipWs_quote]
  rw [member_str_comma (n + 3)]
  rw [skipWs_quote]
  rw [member_str_comma (n + 2)]
  rw [skipWs_quote]
  rw [member_str_comma (n + 1)]
  rw [skipWs_quote]
  rw [member_str_close n]
  simp only [Option.map_some', String.mk_data_eq, configJson]

/-- Object member whose value is the config object, followed by a comma. -/
theorem member_config_comma (n : Nat) (kd : List Char) (config : FirebaseConfig)
    (rest : List Char) :
    parseMembers (n + 9)
        ('"' :: (kd.flatMap escapeChar ++ ('"' :: (':' ::
          (configObjData config ++ (',' :: rest)))))) =
      (parseMembers (n + 8) (skipWs rest)).map
        (fun p => ((String.mk kd, configJson config) :: p.1, p.2)) := by
  rw [parseMembers_succ (n + 8)]
  rw [expectQuoteKey_escape]
  simp only [Option.some_bind]
  rw [expectChar_colon]
  simp only [Option.some_bind]
  rw [show skipWs (configObjData config ++ (',' :: rest)) =
    configObjData config ++ (',' :: rest) from rfl]
  rw [parseVal_configObj n]
  simp only [Option.some_bind]
  rfl

/-- Reading back the whole stringified settings object. -/
theorem parseVal_settings (n : Nat) (config : FirebaseConfig) (vapidKey serverKey : String) :
    parseVal (n + 10) (stringifySettingsData config vapidKey serverKey) =
      some (settingsJson config vapidKey serverKey, []) := by
  simp only [stringifySettingsData, strMember, quoteString, List.cons_append,
    List.append_assoc, List.nil_append]
  rw [parseVal_objNormal (n + 9)]
  rw [member_config_comma n]
  rw [skipWs_quote]
  rw [member_str_comma (n + 6)]
  rw [skipWs_quote]
  rw [member_str_close (n + 5)]
  simp only [Option.map_some', String.mk_data_eq, settingsJson, configJson]

/-- Model of `JSON.parse` inverts the stringified settings object. -/
theorem parseJson_stringifySettings (config : FirebaseConfig) (vapidKey serverKey : String) :
    parseJson (stringifySettings config vapidKey serverKey) =
      some (settingsJson config vapidKey serverKey) := by
  unfold parseJson
  rw [show (stringifySettings config vapidKey serverKey).data =
    stringifySettingsData config vapidKey serverKey from rfl]
  rw [show skipWs (stringifySettingsData config vapidKey serverKey) =
    stringifySettingsData config vapidKey serverKey from rfl]
  rw [parseVal_settings ((stringifySettingsData config vapidKey serverKey).length)]
  rfl

/-! ### Claim theorems -/

/-- Claim C4: settings persistence round-trips through local storage: for
every Firebase config, VAPID key and server key, `saveSettings` followed by
`loadSavedSettings` returns exactly the object `{config, vapidKey, serverKey}`
(the parsed JSON value with those three fields). -/
theorem c4_settings_roundtrip (store : LocalStorage) (config : FirebaseConfig)
    (vapidKey serverKey : String) :
    loadSavedSettings (saveSettings store config vapidKey serverKey) =
      some (settingsJson config vapidKey serverKey) := by
  have hne : stringifySettings config vapidKey serverKey ≠ "" := by
    intro h
    have h2 : (stringifySettings config vapidKey serverKey).data = ("" : String).data :=
      congrArg String.data h
    rw [show (stringifySettings config vapidKey serverKey).data =
      stringifySettingsData config vapidKey serverKey from rfl] at h2
    rw [show ("" : String).data = [] from rfl] at h2
    simp only [stringifySettingsData] at h2
    exact List.cons_ne_nil _ _ h2
  have hget : (saveSettings store config vapidKey serverKey).getItem LOCAL_STORAGE_KEY =
      some (stringifySettings config vapidKey serverKey) := rfl
  show (if stringifySettings config vapidKey serverKey = "" then none
    else parseJson (stringifySettings config vapidKey serverKey)) =
      some (settingsJson config vapidKey serverKey)
  rw [if_neg hne]
  exact parseJson_stringifySettings config vapidKey serverKey

/-- Claim C5: when the notification permission prompt resolves to anything
other than granted, `handleRequestPermissionAndToken` appends exactly one
error status message, performs no `getToken` call, and leaves every other
state field (in particular `token` and `targetToken`) unchanged. -/
theorem c5_permission_denied (s : AppState) (env : TokenEnv) (p : String)
    (hm : s.messaging = some ()) (hv : jsTrim s.vapidKey ≠ "")
    (hn : env.notificationDefined = true)
    (hp : env.permission = .ok p) (hg : p ≠ "granted") :
    handleRequestPermissionAndToken s env =
      ({s with statusMessages :=
          ⟨.error, "알림 권한을 허용하지 않아 토큰을 발급할 수 없습니다.", env.now⟩ :: s.statusMessages},
        [Ev.requestPermissionEv]) ∧
    (handleRequestPermissionAndToken s env).1.token = s.token ∧
    (handleRequestPermissionAndToken s env).1.targetToken = s.targetToken ∧
    ∀ vk reg, Ev.getTokenEv vk reg ∉ (handleRequestPermissionAndToken s env).2 := by
  have hmain : handleRequestPermissionAndToken s env =
      ({s with statusMessages :=
          ⟨.error, "알림 권한을 허용하지 않아 토큰을 발급할 수 없습니다.", env.now⟩ :: s.statusMessages},
        [Ev.requestPermissionEv]) := by
    unfold handleRequestPermissionAndToken
    rw [if_neg (show ¬s.messaging = none by simp [hm]), if_neg hv,
      if_neg (show ¬env.notificationDefined = false by simp [hn]), hp]
    show (if p ≠ "granted" then _ else _) = _
    rw [if_pos hg]
    rfl
  refine ⟨hmain, ?_, ?_, ?_⟩
  · rw [hmain]
  · rw [hmain]
  · intro vk reg
    rw [hmain]
    simp

/-- Witness for C5 at a concrete state and a denied permission. -/
theorem c5_witness :
    (handleRequestPermissionAndToken sampleState
        ⟨true, .ok "denied", sampleSWEnv, .ok "tok", 7⟩).1.token = sampleState.token :=
  (c5_permission_denied sampleState ⟨true, .ok "denied", sampleSWEnv, .ok "tok", 7⟩ "denied"
    rfl (by decide) rfl rfl (by decide)).2.1

/-- Claim C9: `handleSendPush` is atomic on validation failure: when the
server key is blank, the target token is blank, or the data field is
non-blank but not valid JSON, no fetch happens, the trace is empty, the
sending flag is untouched, and the only state changes are the cleared
`sendResult` plus one appended error message. -/
theorem c9_sendpush_validation (s : AppState) (env : SendEnv)
    (h : jsTrim s.serverKey = "" ∨ jsTrim s.targetToken = "" ∨
      (jsTrim s.pushPayload.data ≠ "" ∧ parseJson s.pushPayload.data = none)) :
    (∃ msg, handleSendPush s env =
      ({s with
          sendResult := "",
          statusMessages := ⟨.error, msg, env.now⟩ :: s.statusMessages}, [])) ∧
    (handleSendPush s env).1.sending = s.sending ∧
    (handleSendPush s env).2 = [] := by
  have hmain : ∃ msg, handleSendPush s env =
      ({s with
          sendResult := "",
          statusMessages := ⟨.error, msg, env.now⟩ :: s.statusMessages}, []) := by
    by_cases h1 : jsTrim s.serverKey = ""
    · refine ⟨"서버 키(legacy key)를 입력해주세요.", ?_⟩
      unfold handleSendPush
      rw [if_pos h1]
      rfl
    · by_cases h2 : jsTrim s.targetToken = ""
      · refine ⟨"전송할 대상 토큰을 입력해주세요.", ?_⟩
        unfold handleSendPush
        rw [if_neg h1, if_pos h2]
        rfl
      · have h3 : jsTrim s.pushPayload.data ≠ "" ∧ parseJson s.pushPayload.data = none := by
          rcases h with h | h | h
          · exact absurd h h1
          · exact absurd h h2
          · exact h
        refine ⟨"데이터(JSON) 형식이 올바르지 않습니다.", ?_⟩
        unfold handleSendPush
        rw [if_neg h1, if_neg h2]
        rw [show parseDataPayload s.pushPayload.data =
          .error "데이터(JSON) 형식이 올바르지 않습니다." by
            unfold parseDataPayload
            rw [if_neg h3.1, h3.2]]
        rfl
  obtain ⟨msg, hmain⟩ := hmain
  exact ⟨⟨msg, hmain⟩, by rw [hmain], by rw [hmain]⟩

/-- Witness for C9 at a concrete state whose data field is not valid JSON. -/
theorem c9_witness :
    (handleSendPush {sampleState with pushPayload := ⟨"t", "b", "", "\x7b"⟩}
        ⟨.ok ⟨true, 200, "ok"⟩, 7⟩).2 = [] :=
  (c9_sendpush_validation {sampleState with pushPayload := ⟨"t", "b", "", "\x7b"⟩}
    ⟨.ok ⟨true, 200, "ok"⟩, 7⟩ (Or.inr (Or.inr ⟨by decide, by rfl⟩))).2.2

/-- Claim C6: when the fetch rejects or the response is not ok,
`handleSendPush` appends the CORS error status message and stores the error
description in `sendResult` instead of the success text; and on every path
past validation the sending flag ends up false. -/
theorem c6_sendpush_fetch_failure (s : AppState) (env : SendEnv)
    (h1 : jsTrim s.serverKey ≠ "") (h2 : jsTrim s.targetToken ≠ "")
    (dp : Option Json) (h3 : parseDataPayload s.pushPayload.data = .ok dp) :
    (∀ e, env.fetchResult = .error e →
      (handleSendPush s env).1.sendResult = e.getD "오류가 발생했습니다." ∧
      (handleSendPush s env).1.statusMessages =
        ⟨.error, corsErrorText, env.now⟩ :: s.statusMessages) ∧
    (∀ resp, env.fetchResult = .ok resp → resp.ok = false →
      (handleSendPush s env).1.sendResult =
        "FCM 전송 실패 (" ++ toString resp.status ++ "): " ++ resp.text ∧
      (handleSendPush s env).1.statusMessages =
        ⟨.error, corsErrorText, env.now⟩ :: s.statusMessages) ∧
    (handleSendPush s env).1.sending = false := by
  have herr : ∀ e, env.fetchResult = .error e → handleSendPush s env =
      ({s with
          sendResult := e.getD "오류가 발생했습니다.",
          sending := false,
          statusMessages := ⟨.error, corsErrorText, env.now⟩ :: s.statusMessages},
        [Ev.fetchEv FCM_SEND_URL "POST"
          [("Content-Type", "application/json"),
           ("Authorization", "key=" ++ jsTrim s.serverKey)]
          (sendBody {s with sendResult := ""} dp)]) := by
    intro e he
    unfold handleSendPush
    rw [if_neg h1, if_neg h2, h3]
    show (match env.fetchResult with
      | .error e => _
      | .ok resp => _) = _
    rw [he]
    rfl
  have hok : ∀ resp, env.fetchResult = .ok resp → handleSendPush s env =
      ((if resp.ok = false then
          {s with
            sendResult := "FCM 전송 실패 (" ++ toString resp.status ++ "): " ++ resp.text,
            sending := false,
            statusMessages := ⟨.error, corsErrorText, env.now⟩ :: s.statusMessages}
        else
          {s with
            sendResult := resp.text,
            sending := false,
            statusMessages :=
              ⟨.success, "푸시 메시지 전송 요청을 완료했습니다.", env.now⟩ :: s.statusMessages}),
        [Ev.fetchEv FCM_SEND_URL "POST"
          [("Content-Type", "application/json"),
           ("Authorization", "key=" ++ jsTrim s.serverKey)]
          (sendBody {s with sendResult := ""} dp)]) := by
    intro resp hr
    unfold handleSendPush
    rw [if_neg h1, if_neg h2, h3]
    show (match env.fetchResult with
      | .error e => _
      | .ok resp => _) = _
    rw [hr]
    show (if resp.ok = false then _ else _ : AppState × List Ev) = _
    by_cases hko : resp.ok = false
    · rw [if_pos hko, if_pos hko]
      rfl
    · rw [if_neg hko, if_neg hko]
      rfl
  refine ⟨?_, ?_, ?_⟩
  · intro e he
    rw [herr e he]
    exact ⟨rfl, rfl⟩
  · intro resp hr hko
    rw [hok resp hr, if_pos hko]
    exact ⟨rfl, rfl⟩
  · rcases hf : env.fetchResult with e | resp
    · rw [herr e hf]
    · rw [hok resp hf]
      by_cases hko : resp.ok = false
      · rw [if_pos hko]
      · rw [if_neg hko]

/-- Witness for C6 at a concrete state and a rejected fetch. -/
theorem c6_witness :
    (handleSendPush sampleState ⟨.error (some "boom"), 7⟩).1.sending = false :=
  (c6_sendpush_fetch_failure sampleState ⟨.error (some "boom"), 7⟩
    (by decide) (by decide) none rfl).2.2

/-- Lookup of the to field in the request body built by `handleSendPush`. -/
theorem sendBody_to (s : AppState) (dp : Option Json) :
    (sendBody s dp).prop "to" = some (Json.str (jsTrim s.targetToken)) := by
  unfold sendBody
  cases dp with
  | none => rfl
  | some j =>
    by_cases hj : j.truthy
    · simp only [hj, ↓reduceIte]
      rfl
    · simp only [hj, Bool.false_eq_true, ↓reduceIte]
      rfl

/-- Claim C7: past validation, `handleSendPush` performs exactly one fetch: a
POST to the legacy endpoint, authorized with the trimmed legacy server key,
whose JSON body carries the trimmed target token in the field named to. -/
theorem c7_sendpush_request (s : AppState) (env : SendEnv)
    (h1 : jsTrim s.serverKey ≠ "") (h2 : jsTrim s.targetToken ≠ "")
    (dp : Option Json) (h3 : parseDataPayload s.pushPayload.data = .ok dp) :
    ∃ body, (handleSendPush s env).2 =
      [Ev.fetchEv "https://fcm.googleapis.com/fcm/send" "POST"
        [("Content-Type", "application/json"),
         ("Authorization", "key=" ++ jsTrim s.serverKey)] body] ∧
      body.prop "to" = some (Json.str (jsTrim s.targetToken)) := by
  refine ⟨sendBody {s with sendResult := ""} dp, ?_, ?_⟩
  · unfold handleSendPush
    rw [if_neg h1, if_neg h2, h3]
    show ((match env.fetchResult with
      | .error e => _
      | .ok resp => _ : AppState × List Ev)).2 = _
    rcases hf : env.fetchResult with e | resp
    · rfl
    · show ((if resp.ok = false then _ else _ : AppState × List Ev)).2 = _
      by_cases hko : resp.ok = false
      · rw [if_pos hko]
        rfl
      · rw [if_neg hko]
        rfl
  · exact sendBody_to {s with sendResult := ""} dp

/-- Witness for C7 at a concrete state. -/
theorem c7_witness :
    ∃ body, (handleSendPush sampleState ⟨.ok ⟨true, 200, "id=1"⟩, 7⟩).2 =
      [Ev.fetchEv "https://fcm.googleapis.com/fcm/send" "POST"
        [("Content-Type", "application/json"),
         ("Authorization", "key=" ++ jsTrim sampleState.serverKey)] body] ∧
      body.prop "to" = some (Json.str (jsTrim sampleState.targetToken)) :=
  c7_sendpush_request sampleState ⟨.ok ⟨true, 200, "id=1"⟩, 7⟩
    (by decide) (by decide) none rfl

/-- Claim C1: `ensureServiceWorkerRegistration` implements the described
state check.  Without service-worker support it throws.  When a registration
already exists it posts INIT_FIREBASE with the current config to the
active-or-else-waiting worker (when one exists), returns that registration,
and never registers again.  When none exists it registers the script; if the
new registration is already active it posts immediately, otherwise it waits
for the installing-or-waiting worker to reach the activated state and then
posts to the resulting active-or-else-waiting worker. -/
theorem c1_ensure_sw (cfg : FirebaseConfig) (env : SWEnv) :
    (env.hasServiceWorker = false →
      ensureServiceWorkerRegistration cfg env =
        (.error (some "서비스 워커를 지원하지 않는 환경입니다."), [])) ∧
    (env.hasServiceWorker = true → ∀ reg, env.existingRegistration = some reg →
      (ensureServiceWorkerRegistration cfg env).1 = .ok reg ∧
      (∀ script, Ev.swRegisterEv script ∉ (ensureServiceWorkerRegistration cfg env).2) ∧
      (∀ w, orWorker reg.active reg.waiting = some w →
        (ensureServiceWorkerRegistration cfg env).2 =
          [Ev.swGetRegistrationEv SW_SCRIPT, Ev.swPostMessageEv w cfg]) ∧
      (orWorker reg.active reg.waiting = none →
        (ensureServiceWorkerRegistration cfg env).2 = [Ev.swGetRegistrationEv SW_SCRIPT])) ∧
    (env.hasServiceWorker = true → env.existingRegistration = none →
      Ev.swRegisterEv SW_SCRIPT ∈ (ensureServiceWorkerRegistration cfg env).2 ∧
      (∀ a, env.newRegistration.active = some a →
        ensureServiceWorkerRegistration cfg env =
          (.ok env.newRegistration,
            [Ev.swGetRegistrationEv SW_SCRIPT, Ev.swRegisterEv SW_SCRIPT,
             Ev.swPostMessageEv a cfg])) ∧
      (env.newRegistration.active = none →
        ∀ w0, orWorker env.newRegistration.installing env.newRegistration.waiting = some w0 →
          ∀ w, orWorker env.activatedRegistration.active env.activatedRegistration.waiting =
              some w →
            ensureServiceWorkerRegistration cfg env =
              (.ok env.activatedRegistration,
                [Ev.swGetRegistrationEv SW_SCRIPT, Ev.swRegisterEv SW_SCRIPT,
                 Ev.swAwaitActivationEv, Ev.swPostMessageEv w cfg]))) := by
  refine ⟨?_, ?_, ?_⟩
  · intro hsw
    unfold ensureServiceWorkerRegistration
    rw [if_pos hsw]
  · intro hsw reg he
    have heq : ensureServiceWorkerRegistration cfg env =
        (match orWorker reg.active reg.waiting with
         | some w =>
           (.ok reg, [Ev.swGetRegistrationEv SW_SCRIPT, Ev.swPostMessageEv w cfg])
         | none => (.ok reg, [Ev.swGetRegistrationEv SW_SCRIPT])) := by
      unfold ensureServiceWorkerRegistration
      rw [if_neg (by simp [hsw]), he]
    rcases how : orWorker reg.active reg.waiting with _ | w
    · rw [heq, how]
      refine ⟨rfl, ?_, ?_, fun _ => rfl⟩
      · intro script
        simp
      · intro w hww
        cases hww
    · rw [heq, how]
      refine ⟨rfl, ?_, ?_, ?_⟩
      · intro script
        simp
      · intro w2 hww
        cases hww
        rfl
      · intro hww
        cases hww
  · intro hsw he
    have heq : ensureServiceWorkerRegistration cfg env =
        (let ready :=
          if env.newRegistration.active.isSome then (env.newRegistration, false)
          else
            match orWorker env.newRegistration.installing env.newRegistration.waiting with
            | none => (env.newRegistration, false)
            | some _ => (env.activatedRegistration, true)
         let t1 := [Ev.swGetRegistrationEv SW_SCRIPT, Ev.swRegisterEv SW_SCRIPT] ++
           (if ready.2 then [Ev.swAwaitActivationEv] else [])
         match orWorker ready.1.active ready.1.waiting with
         | some w => (.ok ready.1, t1 ++ [.swPostMessageEv w cfg])
         | none => (.ok ready.1, t1)) := by
      unfold ensureServiceWorkerRegistration
      rw [if_neg (by simp [hsw]), he]
    refine ⟨?_, ?_, ?_⟩
    · rw [heq]
      by_cases hact : env.newRegistration.active.isSome
      · simp only [hact, ↓reduceIte]
        rcases how : orWorker env.newRegistration.active env.newRegistration.waiting
          with _ | w <;> simp [how]
      · rw [if_neg hact]
        rcases how2 : orWorker env.newRegistration.installing env.newRegistration.waiting
          with _ | w0
        · simp only []
          rcases how3 : orWorker env.newRegistration.active env.newRegistration.waiting
            with _ | w <;> simp [how3]
        · simp only []
          rcases how3 : orWorker env.activatedRegistration.active
            env.activatedRegistration.waiting with _ | w <;> simp [how3]
    · intro a ha
      rw [heq]
      simp only [ha, Option.isSome_some, ↓reduceIte]
      rw [show orWorker (some a) env.newRegistration.waiting = some a from rfl]
      rfl
    · intro ha w0 hw0 w hw
      rw [heq]
      simp only [ha, Option.isSome_none, Bool.false_eq_true, ↓reduceIte]
      rw [hw0]
      simp only [hw]
      rfl

/-- Witness for C1: an existing registration with an active worker receives
the INIT_FIREBASE post and is returned unchanged. -/
theorem c1_witness :
    (ensureServiceWorkerRegistration sampleConfig sampleSWEnv).1 = .ok sampleRegistration ∧
    (ensureServiceWorkerRegistration sampleConfig sampleSWEnv).2 =
      [Ev.swGetRegistrationEv SW_SCRIPT, Ev.swPostMessageEv 1 sampleConfig] := by
  have h := (c1_ensure_sw sampleConfig sampleSWEnv).2.1 rfl sampleRegistration rfl
  exact ⟨h.1, h.2.2.1 1 rfl⟩

/-- One-step unfolding of `initializeMessaging` on a present config. -/
theorem initializeMessaging_some (st : SWState) (sup : Bool) (cfg : Json) :
    initializeMessaging st sup (some cfg) =
      (if cfg.isObjectLike = false then (st, [])
       else
         let afterApp :=
           if st.apps.isEmpty then
             ({st with apps := st.apps ++ [cfg]}, [SwEv.initializeAppEv cfg])
           else (st, [])
         if sup then
           let st1 := {afterApp.1 with messagingInstance := some ()}
           if st1.backgroundHandlerRegistered = false then
             ({st1 with backgroundHandlerRegistered := true},
               afterApp.2 ++ [SwEv.createMessagingEv, SwEv.registerBackgroundHandlerEv])
           else (st1, afterApp.2 ++ [SwEv.createMessagingEv])
         else afterApp) := rfl

/-- Claim C8: the worker re-initializes exactly on demand.  A message without
data, with a non-INIT_FIREBASE type, or with a missing or non-object config
leaves the state unchanged with no effects.  An INIT_FIREBASE message with an
object config initializes the Firebase app only when no app exists yet, and
creates a messaging instance when messaging is supported. -/
theorem c8_message_event (st : SWState) (sup : Bool) (data : Option Json) :
    (data = none → handleMessageEvent st sup data = (st, [])) ∧
    (∀ d, data = some d → d.prop "type" ≠ some (Json.str "INIT_FIREBASE") →
      handleMessageEvent st sup data = (st, [])) ∧
    (∀ d, data = some d → d.prop "type" = some (Json.str "INIT_FIREBASE") →
      (d.prop "config" = none → handleMessageEvent st sup data = (st, [])) ∧
      (∀ cfg, d.prop "config" = some cfg → cfg.isObjectLike = false →
        handleMessageEvent st sup data = (st, [])) ∧
      (∀ cfg, d.prop "config" = some cfg → cfg.isObjectLike = true →
        (st.apps = [] → (handleMessageEvent st sup data).1.apps = [cfg] ∧
          SwEv.initializeAppEv cfg ∈ (handleMessageEvent st sup data).2) ∧
        (st.apps ≠ [] → (handleMessageEvent st sup data).1.apps = st.apps ∧
          ∀ c, SwEv.initializeAppEv c ∉ (handleMessageEvent st sup data).2) ∧
        (sup = true → (handleMessageEvent st sup data).1.messagingInstance = some () ∧
          SwEv.createMessagingEv ∈ (handleMessageEvent st sup data).2))) := by
  refine ⟨?_, ?_, ?_⟩
  · intro hd
    rw [hd]
    rfl
  · intro d hd ht
    rw [hd]
    unfold handleMessageEvent
    show (match d.prop "type" with
      | some (Json.str t) =>
        if t = "INIT_FIREBASE" then initializeMessaging st sup (d.prop "config") else (st, [])
      | _ => (st, [])) = _
    rcases hty : d.prop "type" with _ | j
    · rfl
    · cases j with
      | str t =>
        have htne : t ≠ "INIT_FIREBASE" := by
          intro h
          exact ht (by rw [hty, h])
        show (if t = "INIT_FIREBASE" then _ else _) = _
        rw [if_neg htne]
      | null => rfl
      | bool b => rfl
      | num r => rfl
      | arr l => rfl
      | obj fs => rfl
  · intro d hd hty
    rw [hd]
    have heq : handleMessageEvent st sup (some d) =
        initializeMessaging st sup (d.prop "config") := by
      unfold handleMessageEvent
      show (match d.prop "type" with
        | some (Json.str t) =>
          if t = "INIT_FIREBASE" then initializeMessaging st sup (d.prop "config") else (st, [])
        | _ => (st, [])) = _
      rw [hty]
      rfl
    refine ⟨?_, ?_, ?_⟩
    · intro hc
      rw [heq, hc]
      rfl
    · intro cfg hc hobj
      rw [heq, hc, initializeMessaging_some, if_pos hobj]
    · intro cfg hc hobj
      have heq2 : initializeMessaging st sup (some cfg) =
          (let afterApp :=
            if st.apps.isEmpty then
              ({st with apps := st.apps ++ [cfg]}, [SwEv.initializeAppEv cfg])
            else (st, [])
           if sup then
            let st1 := {afterApp.1 with messagingInstance := some ()}
            if st1.backgroundHandlerRegistered = false then
              ({st1 with backgroundHandlerRegistered := true},
                afterApp.2 ++ [SwEv.createMessagingEv, SwEv.registerBackgroundHandlerEv])
            else (st1, afterApp.2 ++ [SwEv.createMessagingEv])
           else afterApp) := by
        rw [initializeMessaging_some, if_neg (by simp [hobj])]
      refine ⟨?_, ?_, ?_⟩
      · intro happs
        rw [heq, hc, heq2]
        simp only [happs, List.isEmpty_nil, ↓reduceIte, List.nil_append]
        by_cases hsup : sup
        · simp only [hsup, ↓reduceIte]
          by_cases hbg : st.backgroundHandlerRegistered = false
          · simp [hbg]
          · simp [hbg]
        · simp only [Bool.not_eq_true] at hsup
          simp [hsup]
      · intro happs
        rw [heq, hc, heq2]
        have hne : st.apps.isEmpty = false := by
          cases h : st.apps with
          | nil => exact absurd h happs
          | cons a l => rfl
        simp only [hne, Bool.false_eq_true, ↓reduceIte]
        by_cases hsup : sup
        · simp only [hsup, ↓reduceIte]
          by_cases hbg : st.backgroundHandlerRegistered = false
          · simp [hbg]
          · simp [hbg]
        · simp only [Bool.not_eq_true] at hsup
          simp [hsup]
      · intro hsup
        rw [heq, hc, heq2]
        simp only [hsup, ↓reduceIte]
        split
        · split
          · exact ⟨rfl, by simp⟩
          · exact ⟨rfl, by simp⟩
        · split
          · exact ⟨rfl, by simp⟩
          · exact ⟨rfl, by simp⟩

/-- Witness for C8: a first INIT_FIREBASE message with an object config on
the fresh worker initializes the app. -/
theorem c8_witness :
    (handleMessageEvent swInitialState true
        (some (Json.obj [("type", Json.str "INIT_FIREBASE"),
          ("config", Json.obj [])]))).1.apps = [Json.obj []] :=
  ((((c8_message_event swInitialState true
      (some (Json.obj [("type", Json.str "INIT_FIREBASE"), ("config", Json.obj [])]))).2.2
    (Json.obj [("type", Json.str "INIT_FIREBASE"), ("config", Json.obj [])]) rfl rfl).2.2
    (Json.obj []) rfl rfl).1 rfl).1

/-- One-step unfolding of `handleMessageEvent` on present data. -/
theorem handleMessageEvent_some (st : SWState) (sup : Bool) (d : Json) :
    handleMessageEvent st sup (some d) =
      (match d.prop "type" with
       | some (Json.str t) =>
         if t = "INIT_FIREBASE" then initializeMessaging st sup (d.prop "config") else (st, [])
       | _ => (st, [])) := rfl

/-- Each message event registers at most the pending potential, and the flag
never resets. -/
theorem handleMessageEvent_potential (st : SWState) (sup : Bool) (m : Option Json) :
    countRegs (handleMessageEvent st sup m).2 +
      regPotential (handleMessageEvent st sup m).1 ≤ regPotential st := by
  rcases m with _ | d
  · simp [handleMessageEvent, countRegs]
  · rw [handleMessageEvent_some]
    rcases hty : d.prop "type" with _ | j
    · simp [countRegs]
    · cases j with
      | str t =>
        by_cases ht : t = "INIT_FIREBASE"
        · subst ht
          simp only [↓reduceIte]
          rcases hc : d.prop "config" with _ | cfg
          · simp [initializeMessaging, countRegs]
          · rw [initializeMessaging_some]
            by_cases hobj : cfg.isObjectLike = false
            · rw [if_pos hobj]
              simp [countRegs]
            · rw [if_neg hobj]
              by_cases hsup : sup
              · simp only [hsup, ↓reduceIte]
                split <;> split <;>
                  simp_all [countRegs, regPotential, SwEv.isRegisterBg]
              · simp only [Bool.not_eq_true] at hsup
                simp only [hsup, Bool.false_eq_true, ↓reduceIte]
                split <;> simp [countRegs, regPotential, SwEv.isRegisterBg]
        · show countRegs (if t = "INIT_FIREBASE"
              then initializeMessaging st sup (d.prop "config") else (st, [])).2 +
            regPotential (if t = "INIT_FIREBASE"
              then initializeMessaging st sup (d.prop "config") else (st, [])).1 ≤
            regPotential st
          rw [if_neg ht]
          simp [countRegs]
      | null => simp [countRegs]
      | bool b => simp [countRegs]
      | num r => simp [countRegs]
      | arr l => simp [countRegs]
      | obj fs => simp [countRegs]

/-- Folding the potential bound over a whole message sequence. -/
theorem processMessageEvents_potential (sup : Bool) (msgs : List (Option Json)) :
    ∀ st, countRegs (processMessageEvents st sup msgs).2 +
      regPotential (processMessageEvents st sup msgs).1 ≤ regPotential st := by
  induction msgs with
  | nil => intro st; simp [processMessageEvents, countRegs]
  | cons m rest ih =>
    intro st
    have h1 := handleMessageEvent_potential st sup m
    have h2 := ih (handleMessageEvent st sup m).1
    unfold processMessageEvents
    simp only [countRegs, List.countP_append] at h1 h2 ⊢
    omega

/-- Claim C10: across any sequence of message events delivered to the fresh
worker, the background handler is registered at most once; moreover once the
flag is set, any further message event registers nothing and keeps the flag
set. -/
theorem c10_register_at_most_once :
    (∀ sup msgs, countRegs (processMessageEvents swInitialState sup msgs).2 ≤ 1) ∧
    (∀ st sup m, st.backgroundHandlerRegistered = true →
      countRegs (handleMessageEvent st sup m).2 = 0 ∧
      (handleMessageEvent st sup m).1.backgroundHandlerRegistered = true) := by
  constructor
  · intro sup msgs
    have h := processMessageEvents_potential sup msgs swInitialState
    have hpot : regPotential swInitialState = 1 := rfl
    omega
  · intro st sup m hbg
    have h := handleMessageEvent_potential st sup m
    have hpot : regPotential st = 0 := by simp [regPotential, hbg]
    have h1 : countRegs (handleMessageEvent st sup m).2 = 0 := by omega
    have h2 : regPotential (handleMessageEvent st sup m).1 = 0 := by omega
    refine ⟨h1, ?_⟩
    by_contra hflag
    simp only [Bool.not_eq_true] at hflag
    rw [regPotential, hflag] at h2
    simp at h2

/-- Witness for C10: a message arriving with the flag already set registers
nothing. -/
theorem c10_witness :
    countRegs (handleMessageEvent ⟨none, true, []⟩ true
      (some (Json.obj [("type", Json.str "INIT_FIREBASE"), ("config", Json.obj [])]))).2 = 0 :=
  (c10_register_at_most_once.2 ⟨none, true, []⟩ true
    (some (Json.obj [("type", Json.str "INIT_FIREBASE"), ("config", Json.obj [])])) rfl).1

/-- Counterexample to C3 as stated: a raw push event carrying data that is
not valid JSON reaches the worker in its fresh state, and no notification is
shown (the listener catches the parse failure and returns). -/
theorem c3_counterexample : handlePushEvent swInitialState (some "hello") = [] := rfl

/-- Claim C3 (amended): every background message delivered to the
`onBackgroundMessage` callback shows one notification whose title, body and
icon come from the notification fields of the payload with the fixed
fallbacks; and a raw push event shows the fallback notification exactly when
no messaging instance exists and the event carries data that parses as JSON:
under those conditions the fallback notification is shown, and in every other
case (a messaging instance exists, the event has no data, or the data does
not parse) the listener shows nothing. -/
theorem c3_notifications (payload : Json) (st : SWState) (raw : String) (pj : Json)
    (hm : st.messagingInstance = none) (hp : parseJson raw = some pj) :
    onBackgroundMessageHandler payload =
      [SwEv.showNotificationEv
        (jsCoalesce ((payload.prop "notification").bind (fun n => n.prop "title"))
          (Json.str "백그라운드 메시지"))
        (jsCoalesce ((payload.prop "notification").bind (fun n => n.prop "body")) (Json.str ""))
        (jsCoalesce ((payload.prop "notification").bind (fun n => n.prop "icon"))
          (Json.str "/vite.svg"))
        (some (jsCoalesce (payload.prop "data") (Json.obj [])))] ∧
    handlePushEvent st (some raw) =
      [SwEv.showNotificationEv
        (jsCoalesce ((pj.prop "notification").bind (fun n => n.prop "title"))
          (Json.str "푸시 알림"))
        (jsCoalesce ((pj.prop "notification").bind (fun n => n.prop "body")) (Json.str ""))
        (jsCoalesce ((pj.prop "notification").bind (fun n => n.prop "icon"))
          (Json.str "/vite.svg"))
        none] ∧
    (∀ st2 : SWState, ∀ d : Option String, st2.messagingInstance.isSome = true →
      handlePushEvent st2 d = []) ∧
    (∀ st2 : SWState, handlePushEvent st2 none = []) ∧
    (∀ st2 : SWState, ∀ raw2 : String, st2.messagingInstance = none →
      parseJson raw2 = none → handlePushEvent st2 (some raw2) = []) := by
  refine ⟨rfl, ?_, ?_, ?_, ?_⟩
  · unfold handlePushEvent
    rw [hm]
    show (match parseJson raw with
      | none => []
      | some payload =>
        [SwEv.showNotificationEv
          (jsCoalesce ((payload.prop "notification").bind (fun n => n.prop "title"))
            (Json.str "푸시 알림"))
          (jsCoalesce ((payload.prop "notification").bind (fun n => n.prop "body"))
            (Json.str ""))
          (jsCoalesce ((payload.prop "notification").bind (fun n => n.prop "icon"))
            (Json.str "/vite.svg"))
          none]) = _
    rw [hp]
  · intro st2 d h2
    unfold handlePushEvent
    rw [if_pos h2]
  · intro st2
    unfold handlePushEvent
    by_cases h2 : st2.messagingInstance.isSome = true
    · rw [if_pos h2]
    · rw [if_neg h2]
  · intro st2 raw2 hm2 hp2
    unfold handlePushEvent
    rw [hm2]
    show (match parseJson raw2 with
      | none => []
      | some payload =>
        [SwEv.showNotificationEv
          (jsCoalesce ((payload.prop "notification").bind (fun n => n.prop "title"))
            (Json.str "푸시 알림"))
          (jsCoalesce ((payload.prop "notification").bind (fun n => n.prop "body"))
            (Json.str ""))
          (jsCoalesce ((payload.prop "notification").bind (fun n => n.prop "icon"))
            (Json.str "/vite.svg"))
          none]) = ([] : List SwEv)
    rw [hp2]

/-- Witness for C3 (amended): a concrete push payload shows the fallback
notification, and a concrete worker with a live messaging instance shows
nothing. -/
theorem c3_witness :
    handlePushEvent swInitialState (some "\x7b\"notification\":\x7b\"title\":\"T\"\x7d\x7d") =
      [SwEv.showNotificationEv (Json.str "T") (Json.str "") (Json.str "/vite.svg") none] ∧
    handlePushEvent ⟨some (), false, []⟩ (some "\x7b\x7d") = [] := by
  have h := c3_notifications (Json.obj []) swInitialState
    "\x7b\"notification\":\x7b\"title\":\"T\"\x7d\x7d"
    (Json.obj [("notification", Json.obj [("title", Json.str "T")])]) rfl (by rfl)
  refine ⟨?_, ?_⟩
  · rw [h.2.1]
    rfl
  · exact h.2.2.1 ⟨some (), false, []⟩ (some "\x7b\x7d") rfl

theorem filterMap_const_none {α β : Type} (l : List α) :
    l.filterMap (fun _ => (none : Option β)) = [] := by
  induction l with
  | nil => rfl
  | cons a l ih => simp [List.filterMap_cons, ih]

theorem prefix_append_both {α : Type} (l : List α) {x y : List α} (h : x <+: y) :
    l ++ x <+: l ++ y := by
  obtain ⟨t, rfl⟩ := h
  exact ⟨t, by simp⟩

/-- The possible effect traces of the service-worker handshake. -/
theorem ensure_trace_cases (cfg : FirebaseConfig) (env : SWEnv) :
    (ensureServiceWorkerRegistration cfg env).2 = [] ∨
    (ensureServiceWorkerRegistration cfg env).2 = [Ev.swGetRegistrationEv SW_SCRIPT] ∨
    (∃ w, (ensureServiceWorkerRegistration cfg env).2 =
      [Ev.swGetRegistrationEv SW_SCRIPT, Ev.swPostMessageEv w cfg]) ∨
    (ensureServiceWorkerRegistration cfg env).2 =
      [Ev.swGetRegistrationEv SW_SCRIPT, Ev.swRegisterEv SW_SCRIPT] ∨
    (∃ w, (ensureServiceWorkerRegistration cfg env).2 =
      [Ev.swGetRegistrationEv SW_SCRIPT, Ev.swRegisterEv SW_SCRIPT,
       Ev.swPostMessageEv w cfg]) ∨
    (ensureServiceWorkerRegistration cfg env).2 =
      [Ev.swGetRegistrationEv SW_SCRIPT, Ev.swRegisterEv SW_SCRIPT,
       Ev.swAwaitActivationEv] ∨
    (∃ w, (ensureServiceWorkerRegistration cfg env).2 =
      [Ev.swGetRegistrationEv SW_SCRIPT, Ev.swRegisterEv SW_SCRIPT,
       Ev.swAwaitActivationEv, Ev.swPostMessageEv w cfg]) := by
  unfold ensureServiceWorkerRegistration
  by_cases hsw : env.hasServiceWorker = false
  · rw [if_pos hsw]
    left
    rfl
  · rw [if_neg hsw]
    rcases he : env.existingRegistration with _ | reg
    · by_cases hact : env.newRegistration.active.isSome
      · simp only [hact, ↓reduceIte]
        rcases how : orWorker env.newRegistration.active env.newRegistration.waiting with _ | w
        · simp only [how]
          right; right; right; left
          trivial
        · simp only [how]
          right; right; right; right; left
          exact ⟨w, rfl⟩
      · simp only [hact, Bool.false_eq_true, ↓reduceIte]
        rcases hiw : orWorker env.newRegistration.installing env.newRegistration.waiting
          with _ | w0
        · simp only [hiw]
          rcases how : orWorker env.newRegistration.active env.newRegistration.waiting with _ | w
          · simp only [how]
            right; right; right; left
            trivial
          · simp only [how]
            right; right; right; right; left
            exact ⟨w, rfl⟩
        · simp only [hiw]
          rcases how : orWorker env.activatedRegistration.active env.activatedRegistration.waiting
            with _ | w
          · simp only [how]
            right; right; right; right; right; left
            trivial
          · simp only [how]
            right; right; right; right; right; right
            exact ⟨w, rfl⟩
    · rcases how : orWorker reg.active reg.waiting with _ | w
      · simp only [how]
        right; left
        trivial
      · simp only [how]
        right; right; left
        exact ⟨w, rfl⟩

theorem ensure_lifecycle (cfg : FirebaseConfig) (env : SWEnv) :
    ((ensureServiceWorkerRegistration cfg env).2.filterMap lifecycleOf) <+:
      [LifecycleStep.swGetReg, LifecycleStep.swReg] := by
  rcases ensure_trace_cases cfg env with h | h | ⟨w, h⟩ | h | ⟨w, h⟩ | h | ⟨w, h⟩ <;>
    rw [h] <;> simp [lifecycleOf]

theorem ensure_tokensteps (cfg : FirebaseConfig) (env : SWEnv) :
    ((ensureServiceWorkerRegistration cfg env).2.filterMap tokenStepOf) = [] := by
  rcases ensure_trace_cases cfg env with h | h | ⟨w, h⟩ | h | ⟨w, h⟩ | h | ⟨w, h⟩ <;>
    rw [h] <;> simp [tokenStepOf]

theorem ensure_nofetch (cfg : FirebaseConfig) (env : SWEnv) :
    ((ensureServiceWorkerRegistration cfg env).2.countP (fun e => e.isFetch)) = 0 := by
  rcases ensure_trace_cases cfg env with h | h | ⟨w, h⟩ | h | ⟨w, h⟩ | h | ⟨w, h⟩ <;>
    rw [h] <;> simp [Ev.isFetch]

/-- Unfolding of the initialization handler in the supported case, with the
stable projections of the original state exposed. -/
theorem handleInit_supported (s0 : AppState) (env : InitEnv) (h : ¬env.supported = false) :
    handleInitializeFirebase s0 env =
      (let s2 : AppState := {s0 with
        isInitializing := true,
        sendResult := "",
        storage := saveSettings s0.storage s0.firebaseConfig s0.vapidKey s0.serverKey}
       let s3 := if env.apps.length > 0 then
           appendStatus s2 .info "기존 Firebase 앱 구성을 초기화했습니다." env.now
         else s2
       let t3 := Ev.saveSettingsEv s0.firebaseConfig s0.vapidKey s0.serverKey ::
         (env.apps.map (fun _ => Ev.deleteAppEv) ++
           [Ev.initializeAppEv s0.firebaseConfig, Ev.getMessagingEv])
       match ensureServiceWorkerRegistration s0.firebaseConfig env.sw with
       | (.error e, tsw) =>
         ({appendStatus s3 .error (e.getD "Firebase 초기화에 실패했습니다.") env.now with
             isInitializing := false}, t3 ++ tsw)
       | (.ok _, tsw) =>
         ({appendStatus {s3 with firebaseApp := some s0.firebaseConfig, messaging := some ()}
             .success "Firebase 초기화 및 서비스 워커 구성이 완료되었습니다." env.now with
             isInitializing := false}, t3 ++ tsw)) := by
  unfold handleInitializeFirebase
  rw [if_neg h]
  rfl

/-- Lifecycle ordering within the initialization handler. -/
theorem handleInit_lifecycle (s0 : AppState) (env : InitEnv) :
    ((handleInitializeFirebase s0 env).2.filterMap lifecycleOf) <+:
      [LifecycleStep.initApp, LifecycleStep.getMsg, LifecycleStep.swGetReg,
       LifecycleStep.swReg] := by
  by_cases hsup : env.supported = false
  · unfold handleInitializeFirebase
    rw [if_pos hsup]
    simp
  · rw [handleInit_supported s0 env hsup]
    rcases hsw : ensureServiceWorkerRegistration s0.firebaseConfig env.sw with ⟨res, tsw⟩
    have hl := ensure_lifecycle s0.firebaseConfig env.sw
    rw [hsw] at hl
    have hmap : (env.apps.map (fun _ => Ev.deleteAppEv)).filterMap lifecycleOf = [] := by
      induction env.apps with
      | nil => rfl
      | cons a l ih => simp [lifecycleOf, ih]
    cases res with
    | error e =>
      simp only [List.filterMap_cons, List.filterMap_append, lifecycleOf, hmap,
        List.nil_append]
      exact prefix_append_both [LifecycleStep.initApp, LifecycleStep.getMsg] hl
    | ok reg =>
      simp only [List.filterMap_cons, List.filterMap_append, lifecycleOf, hmap,
        List.nil_append]
      exact prefix_append_both [LifecycleStep.initApp, LifecycleStep.getMsg] hl

/-- Permission is requested before any `getToken` call within the token
handler. -/
theorem handleToken_steps (s : AppState) (env : TokenEnv) :
    ((handleRequestPermissionAndToken s env).2.filterMap tokenStepOf) <+:
      [TokenStep.perm, TokenStep.getTok] := by
  unfold handleRequestPermissionAndToken
  by_cases hm : s.messaging = none
  · rw [if_pos hm]
    simp
  · rw [if_neg hm]
    by_cases hv : jsTrim s.vapidKey = ""
    · rw [if_pos hv]
      simp [tokenStepOf]
    · rw [if_neg hv]
      by_cases hn : env.notificationDefined = false
      · rw [if_pos hn]
        simp
      · rw [if_neg hn]
        rcases hp : env.permission with e | p
        · simp [tokenStepOf]
        · by_cases hg : p ≠ "granted"
          · simp [hg, tokenStepOf]
          · rcases hsw : ensureServiceWorkerRegistration s.firebaseConfig env.sw with ⟨res, tsw⟩
            have ht := ensure_tokensteps s.firebaseConfig env.sw
            rw [hsw] at ht
            cases res with
            | error e =>
              simp [hg, tokenStepOf, ht]
            | ok reg =>
              rcases hgt : env.getTokenResult with e | tok
              · simp [hg, tokenStepOf, ht]
              · by_cases htk : tok = ""
                · simp [hg, htk, tokenStepOf, ht]
                · simp [hg, htk, tokenStepOf, ht]

/-- The initialization handler never issues the HTTP send call. -/
theorem handleInit_nofetch (s0 : AppState) (env : InitEnv) :
    ((handleInitializeFirebase s0 env).2.countP (fun e => e.isFetch)) = 0 := by
  by_cases hsup : env.supported = false
  · unfold handleInitializeFirebase
    rw [if_pos hsup]
    simp
  · rw [handleInit_supported s0 env hsup]
    rcases hsw : ensureServiceWorkerRegistration s0.firebaseConfig env.sw with ⟨res, tsw⟩
    have hf := ensure_nofetch s0.firebaseConfig env.sw
    rw [hsw] at hf
    have hmap : ((env.apps.map (fun _ => Ev.deleteAppEv)).countP (fun e => e.isFetch)) = 0 := by
      induction env.apps with
      | nil => rfl
      | cons a l ih => simp [Ev.isFetch, ih]
    have hf2 : (tsw.countP (fun e2 => e2.isFetch)) = 0 := hf
    cases res <;>
      (simp only [List.countP_cons, List.countP_append, List.countP_nil, hmap, hf2]
       simp [Ev.isFetch])

/-- The token handler never issues the HTTP send call. -/
theorem handleToken_nofetch (s : AppState) (env : TokenEnv) :
    ((handleRequestPermissionAndToken s env).2.countP (fun e => e.isFetch)) = 0 := by
  unfold handleRequestPermissionAndToken
  by_cases hm : s.messaging = none
  · rw [if_pos hm]
    simp
  · rw [if_neg hm]
    by_cases hv : jsTrim s.vapidKey = ""
    · rw [if_pos hv]
      simp [Ev.isFetch]
    · rw [if_neg hv]
      by_cases hn : env.notificationDefined = false
      · rw [if_pos hn]
        simp
      · rw [if_neg hn]
        rcases hp : env.permission with e | p
        · simp [Ev.isFetch]
        · by_cases hg : p ≠ "granted"
          · simp [hg, Ev.isFetch]
          · rcases hsw : ensureServiceWorkerRegistration s.firebaseConfig env.sw with ⟨res, tsw⟩
            have hf := ensure_nofetch s.firebaseConfig env.sw
            rw [hsw] at hf
            have hf2 : (tsw.countP (fun e2 => e2.isFetch)) = 0 := hf
            cases res with
            | error e =>
              simp only [hg, ↓reduceIte, List.countP_cons, List.countP_append,
                List.countP_nil, hf2]
              simp [Ev.isFetch]
            | ok reg =>
              rcases hgt : env.getTokenResult with e | tok
              · simp only [hg, ↓reduceIte, List.countP_cons, List.countP_append,
                  List.countP_nil, hf2]
                simp [Ev.isFetch]
              · by_cases htk : tok = ""
                · simp only [hg, htk, ↓reduceIte, List.countP_cons, List.countP_append,
                    List.countP_nil, hf2]
                  simp [Ev.isFetch]
                · simp only [hg, htk, ↓reduceIte, List.countP_cons, List.countP_append,
                    List.countP_nil, hf2]
                  simp [Ev.isFetch, htk]

/-- The send handler performs either nothing or exactly one fetch. -/
theorem handleSend_shape (s : AppState) (env : SendEnv) :
    (handleSendPush s env).2 = [] ∨
    ∃ u m hs b, (handleSendPush s env).2 = [Ev.fetchEv u m hs b] := by
  unfold handleSendPush
  by_cases h1 : jsTrim s.serverKey = ""
  · rw [if_pos h1]
    left
    rfl
  · rw [if_neg h1]
    by_cases h2 : jsTrim s.targetToken = ""
    · rw [if_pos h2]
      left
      rfl
    · rw [if_neg h2]
      rcases hd : parseDataPayload s.pushPayload.data with msg | dp
      · left
        simp
      · right
        refine ⟨FCM_SEND_URL, "POST",
          [("Content-Type", "application/json"),
           ("Authorization", "key=" ++ jsTrim s.serverKey)],
          sendBody {s with sendResult := ""} dp, ?_⟩
        rcases hf : env.fetchResult with e | resp
        · rfl
        · show ((if resp.ok = false then _ else _ : AppState × List Ev)).2 = _
          by_cases hko : resp.ok = false
          · rw [if_pos hko]
          · rw [if_neg hko]

/-- Claim C2: the lifecycle is never reordered.  Within initialization the
filtered milestone sequence is always a prefix of initializeApp, getMessaging,
service-worker lookup, service-worker register; within the token handler the
permission request precedes any getToken call; the HTTP send call happens in
no handler but `handleSendPush`, whose trace is at most that single fetch. -/
theorem c2_lifecycle_order :
    (∀ s0 env, ((handleInitializeFirebase s0 env).2.filterMap lifecycleOf) <+:
      [LifecycleStep.initApp, LifecycleStep.getMsg, LifecycleStep.swGetReg,
       LifecycleStep.swReg]) ∧
    (∀ s env, ((handleRequestPermissionAndToken s env).2.filterMap tokenStepOf) <+:
      [TokenStep.perm, TokenStep.getTok]) ∧
    (∀ s0 env, ((handleInitializeFirebase s0 env).2.countP (fun e => e.isFetch)) = 0) ∧
    (∀ s env, ((handleRequestPermissionAndToken s env).2.countP (fun e => e.isFetch)) = 0) ∧
    (∀ s env, (handleSendPush s env).2 = [] ∨
      ∃ u m hs b, (handleSendPush s env).2 = [Ev.fetchEv u m hs b]) :=
  ⟨handleInit_lifecycle, handleToken_steps, handleInit_nofetch, handleToken_nofetch,
    handleSend_shape⟩
